import Mathlib

/-
Verification of the temporal-region frame-compositing engine of the
BlurToolPrototype repository.

The development shallowly embeds the Python sources:
  * `blur_engine_advanced.py` — `BlurRegion`, `BlurEngine.apply_blur_region`,
    `BlurEngine.process_video` (the advanced engine used for full export);
  * `blur_engine.py` — the basic engine variant (same clipping and frame
    loop, different strength curve and blending);
  * `blur_advanced_ui.py` — `apply_blur_effects_for_frame` (the preview/GIF
    compositing path), `export_as_gif` (frame sampling and GIF timing), and
    `load_regions` (region persistence into the store).

Pixel channel values are modelled as rationals (the idealized value computed
by the float pipeline before 8-bit quantization).  The external OpenCV
transforms `cv2.GaussianBlur` and `cv2.resize` are taken as function
parameters (`gauss`, `resize`): no claim depends on their internals, only on
the kernel sizes they are handed and how many times they are applied.
Python object identity (whether a returned buffer is the very input array or
a fresh copy) is recorded explicitly as a Boolean component of the result.
-/

namespace BlurTool

/-- The `BlurType` enum of both engines (`gaussian`, `pixelate`, `black_box`,
`white_box`); the UI stores the same four values as strings. -/
inductive BlurType where
  | gaussian
  | pixelate
  | black_box
  | white_box
  deriving DecidableEq, Repr

/-- The `BlurRegion` record of `blur_engine_advanced.py` (and the region
dicts of `blur_advanced_ui.py`, which carry the same fields): an integer
rect, an algorithm, an intensity, and a temporal range
`(start_frame, end_frame)` where `end_frame = -1` is the open sentinel.
The constant `pii_type` field is omitted: it is never read by the engine. -/
structure BlurRegion where
  x : ℤ
  y : ℤ
  width : ℤ
  height : ℤ
  blur_type : BlurType
  intensity : ℤ
  start_frame : ℤ
  end_frame : ℤ
  deriving DecidableEq, Repr

/-- A decoded frame: a `height × width × 3` uint8 buffer.  `pix i j` is the
idealized channel value at column `i`, row `j` (all three channels behave
identically, so one rational per pixel suffices). -/
structure Frame where
  width : ℕ
  height : ℕ
  pix : ℤ → ℤ → ℚ

/-- A region-of-interest sub-buffer (`frame[y:y+h, x:x+w]`), in local
coordinates: `pix a b` is the value at column `a`, row `b` of the slice. -/
structure Roi where
  w : ℤ
  h : ℤ
  pix : ℤ → ℤ → ℚ

/-- `x = max(0, min(region.x, frame.shape[1]))` of
`apply_blur_region` (identical in both engines). -/
def clip_x (rx : ℤ) (W : ℕ) : ℤ := max 0 (min rx (W : ℤ))

/-- `y = max(0, min(region.y, frame.shape[0]))` of
`apply_blur_region` (identical in both engines). -/
def clip_y (ry : ℤ) (H : ℕ) : ℤ := max 0 (min ry (H : ℤ))

/-- `width = max(1, min(region.width, frame.shape[1] - x))` of
`apply_blur_region`, where `x` is the already-clipped abscissa. -/
def clip_w (rw : ℤ) (W : ℕ) (x : ℤ) : ℤ := max 1 (min rw ((W : ℤ) - x))

/-- `height = max(1, min(region.height, frame.shape[0] - y))` of
`apply_blur_region`, where `y` is the already-clipped ordinate. -/
def clip_h (rh : ℤ) (H : ℕ) (y : ℤ) : ℤ := max 1 (min rh ((H : ℤ) - y))

/-- Number of columns of the numpy slice `frame[y:y+h, x:x+w]` of a
`H × W` array: `max 0 (min (x+w) W - x)` for in-range `x`. -/
def sliceCols (x w : ℤ) (W : ℕ) : ℤ := max 0 (min (x + w) (W : ℤ) - x)

/-- Number of rows of the numpy slice `frame[y:y+h, x:x+w]`. -/
def sliceRows (y h : ℤ) (H : ℕ) : ℤ := max 0 (min (y + h) (H : ℤ) - y)

/-- The `roi.size == 0` test of `apply_blur_region`, expressed on the clipped
rect of a region against `W × H` frame dimensions: the slice
`frame[y:y+height, x:x+width]` is empty iff it has no rows or no columns. -/
def roi_size_zero (r : BlurRegion) (W H : ℕ) : Bool :=
  let x := clip_x r.x W
  let y := clip_y r.y H
  let w := clip_w r.width W x
  let h := clip_h r.height H y
  sliceRows y h H == 0 || sliceCols x w W == 0

/-- The clipped ROI view `roi = frame[y:y+height, x:x+width]` of
`apply_blur_region`, as a sub-buffer in local coordinates. -/
def roiOf (fr : Frame) (r : BlurRegion) : Roi :=
  let x := clip_x r.x fr.width
  let y := clip_y r.y fr.height
  let w := clip_w r.width fr.width x
  let h := clip_h r.height fr.height y
  ⟨w, h, fun a b => fr.pix (x + a) (y + b)⟩

/-- `opacity = max(0.1, min(1.0, region.intensity / 100.0))` of
`apply_blur_region` (identical in both engines and the UI path). -/
def opacityOf (intensity : ℤ) : ℚ :=
  max (1 / 10) (min 1 ((intensity : ℚ) / 100))

/-- `kernel_size = int(15 + (opacity * 86)); if kernel_size % 2 == 0:
kernel_size += 1` of the advanced engine (Python `int` truncates; the
argument is nonnegative here, so this is the floor). -/
def kernel_size (o : ℚ) : ℤ :=
  let k := Int.floor (15 + o * 86)
  if k % 2 = 0 then k + 1 else k

/-- `pixel_size = max(3, int(3 + (opacity * 27)))` of the advanced engine. -/
def pixel_size (o : ℚ) : ℤ := max 3 (Int.floor (3 + o * 27))

/-- The algorithm dispatch of the advanced `apply_blur_region`, producing
`blurred_roi` from the clipped ROI.  `gauss k` stands for
`cv2.GaussianBlur(·, (k, k), 0)` and `resize (w, h)` for
`cv2.resize(·, (w, h))` (the interpolation flag does not matter here);
both are external library transforms passed in as parameters. -/
def blurred_roi (gauss : ℤ → Roi → Roi) (resize : ℤ × ℤ → Roi → Roi)
    (roi : Roi) (bt : BlurType) (o : ℚ) : Roi :=
  match bt with
  | .gaussian =>
      let k := kernel_size o
      let b1 := gauss k roi
      let b2 := if o > 7 / 10 then gauss k b1 else b1
      if o > 9 / 10 then gauss k b2 else b2
  | .pixelate =>
      let ps := pixel_size o
      let small := resize (max 1 (roi.w / ps), max 1 (roi.h / ps)) roi
      resize (roi.w, roi.h) small
  | .black_box => ⟨roi.w, roi.h, fun _ _ => 0⟩
  | .white_box => ⟨roi.w, roi.h, fun _ _ => 255⟩

/-- `result[y:y+h, x:x+w] = data` on a copy of `fr`: every pixel inside the
rect comes from `data` (in local coordinates), every other pixel is
unchanged. -/
def writeRect (fr : Frame) (x y w h : ℤ) (data : ℤ → ℤ → ℚ) : Frame :=
  { fr with
    pix := fun i j =>
      if x ≤ i ∧ i < x + w ∧ y ≤ j ∧ j < y + h then data (i - x) (j - y)
      else fr.pix i j }

/-- Shallow embedding of the advanced engine's
`BlurEngine.apply_blur_region(frame, region)`.  The second component of the
result records Python object identity: `true` means the function executed
`return frame`, handing back the very input buffer (the degenerate-ROI early
return, which is also what the enclosing `except` clause would produce);
`false` means it returned `result = frame.copy()` with the blended rect
written into the copy. -/
def apply_blur_region (gauss : ℤ → Roi → Roi) (resize : ℤ × ℤ → Roi → Roi)
    (fr : Frame) (r : BlurRegion) : Frame × Bool :=
  let x := clip_x r.x fr.width
  let y := clip_y r.y fr.height
  let w := clip_w r.width fr.width x
  let h := clip_h r.height fr.height y
  if roi_size_zero r fr.width fr.height then (fr, true)
  else
    let o := opacityOf r.intensity
    let roi := roiOf fr r
    let blurred := blurred_roi gauss resize roi r.blur_type o
    if o ≥ 95 / 100 then
      (writeRect fr x y w h blurred.pix, false)
    else
      let bw := min 1 (o * (12 / 10))
      (writeRect fr x y w h
        (fun a b => (1 - bw) * roi.pix a b + bw * blurred.pix a b), false)

/-- The membership test of the export loop (`process_video`, identical in
both engines): `region.start_frame <= frame_count <= region.end_frame or
(region.start_frame <= frame_count and region.end_frame == -1)`. -/
def frameActiveExport (r : BlurRegion) (f : ℤ) : Bool :=
  (decide (r.start_frame ≤ f) && decide (f ≤ r.end_frame)) ||
    (decide (r.start_frame ≤ f) && decide (r.end_frame = -1))

/-- One iteration of the export loop's region pass (advanced engine): each
active region is applied to the already-composited frame in store order. -/
def process_frame (gauss : ℤ → Roi → Roi) (resize : ℤ × ℤ → Roi → Roi)
    (regions : List BlurRegion) (f : ℤ) (fr : Frame) : Frame :=
  regions.foldl
    (fun acc r =>
      if frameActiveExport r f then (apply_blur_region gauss resize acc r).1
      else acc)
    fr

/-- The frame loop of the advanced `BlurEngine.process_video` (manual
regions only, `auto_detect = False`): `frame_count` starts at `0` and
increments once per decoded frame. -/
def process_video_frames (gauss : ℤ → Roi → Roi) (resize : ℤ × ℤ → Roi → Roi)
    (regions : List BlurRegion) : ℕ → List Frame → List Frame
  | _, [] => []
  | f, fr :: rest =>
      process_frame gauss resize regions (f : ℤ) fr ::
        process_video_frames gauss resize regions (f + 1) rest

/-- The full-export pipeline on a decoded frame sequence: frame `N` of the
output is frame `N` of the input composited with every region active at
`N`. -/
def process_video (gauss : ℤ → Roi → Roi) (resize : ℤ × ℤ → Roi → Roi)
    (regions : List BlurRegion) (frames : List Frame) : List Frame :=
  process_video_frames gauss resize regions 0 frames

/-- `kernel_size = int(3 + (opacity * 48))`, forced odd, of the basic
engine (`blur_engine.py`). -/
def kernel_size_basic (o : ℚ) : ℤ :=
  let k := Int.floor (3 + o * 48)
  if k % 2 = 0 then k + 1 else k

/-- `pixel_size = max(2, int(2 + (opacity * 18)))` of the basic engine. -/
def pixel_size_basic (o : ℚ) : ℤ := max 2 (Int.floor (2 + o * 18))

/-- The algorithm dispatch of the basic `apply_blur_region`
(`blur_engine.py`): a single Gaussian pass with the weaker kernel curve,
and the weaker pixelation curve. -/
def blurred_roi_basic (gauss : ℤ → Roi → Roi) (resize : ℤ × ℤ → Roi → Roi)
    (roi : Roi) (bt : BlurType) (o : ℚ) : Roi :=
  match bt with
  | .gaussian => gauss (kernel_size_basic o) roi
  | .pixelate =>
      let ps := pixel_size_basic o
      let small := resize (max 1 (roi.w / ps), max 1 (roi.h / ps)) roi
      resize (roi.w, roi.h) small
  | .black_box => ⟨roi.w, roi.h, fun _ _ => 0⟩
  | .white_box => ⟨roi.w, roi.h, fun _ _ => 255⟩

/-- Shallow embedding of the basic engine's `apply_blur_region`
(`blur_engine.py`).  Clipping and the degenerate-ROI early return are
identical to the advanced engine; blending is
`cv2.addWeighted(roi, 1-opacity, blurred_roi, opacity, 0)` in every case
(both branches of its final `if` execute the same statement): there is no
full-replace branch and no `1.2` weight boost. -/
def apply_blur_region_basic (gauss : ℤ → Roi → Roi)
    (resize : ℤ × ℤ → Roi → Roi) (fr : Frame) (r : BlurRegion) :
    Frame × Bool :=
  let x := clip_x r.x fr.width
  let y := clip_y r.y fr.height
  let w := clip_w r.width fr.width x
  let h := clip_h r.height fr.height y
  if roi_size_zero r fr.width fr.height then (fr, true)
  else
    let o := opacityOf r.intensity
    let roi := roiOf fr r
    let blurred := blurred_roi_basic gauss resize roi r.blur_type o
    (writeRect fr x y w h
      (fun a b => (1 - o) * roi.pix a b + o * blurred.pix a b), false)

/-- One iteration of the basic engine's export loop region pass
(`blur_engine.py process_video`); the membership test is the same
`frameActiveExport` as in the advanced engine. -/
def process_frame_basic (gauss : ℤ → Roi → Roi)
    (resize : ℤ × ℤ → Roi → Roi) (regions : List BlurRegion) (f : ℤ)
    (fr : Frame) : Frame :=
  regions.foldl
    (fun acc r =>
      if frameActiveExport r f then
        (apply_blur_region_basic gauss resize acc r).1
      else acc)
    fr

/-- `x = max(0, min(x, frame.shape[1] - 1))` of the UI preview path
`apply_blur_effects_for_frame` (`blur_advanced_ui.py`); unlike the engines,
the right end is `shape[1] - 1`. -/
def ui_clip_x (rx : ℤ) (W : ℕ) : ℤ := max 0 (min rx ((W : ℤ) - 1))

/-- `y = max(0, min(y, frame.shape[0] - 1))` of the UI preview path. -/
def ui_clip_y (ry : ℤ) (H : ℕ) : ℤ := max 0 (min ry ((H : ℤ) - 1))

/-- The `roi.size > 0` guard of the UI preview path, on the UI-clipped
rect. -/
def ui_roi_size_pos (r : BlurRegion) (W H : ℕ) : Bool :=
  let x := ui_clip_x r.x W
  let y := ui_clip_y r.y H
  let w := clip_w r.width W x
  let h := clip_h r.height H y
  decide (0 < sliceRows y h H) && decide (0 < sliceCols x w W)

/-- The body of one region iteration of `apply_blur_effects_for_frame`:
clip with the UI clipping, read the ROI from the already-composited
`result_frame` (`acc`), dispatch on the blur-type string with the same
strength curves as the advanced engine, then blend with the same
full-replace-at-`0.95` / `1.2`-boost rule. -/
def ui_apply_one (gauss : ℤ → Roi → Roi) (resize : ℤ × ℤ → Roi → Roi)
    (acc : Frame) (r : BlurRegion) : Frame :=
  let x := ui_clip_x r.x acc.width
  let y := ui_clip_y r.y acc.height
  let w := clip_w r.width acc.width x
  let h := clip_h r.height acc.height y
  if ui_roi_size_pos r acc.width acc.height then
    let o := opacityOf r.intensity
    let roi : Roi := ⟨w, h, fun a b => acc.pix (x + a) (y + b)⟩
    let blurred := blurred_roi gauss resize roi r.blur_type o
    if o ≥ 95 / 100 then writeRect acc x y w h blurred.pix
    else
      let bw := min 1 (o * (12 / 10))
      writeRect acc x y w h
        (fun a b => (1 - bw) * roi.pix a b + bw * blurred.pix a b)
  else acc

/-- The membership test of the UI preview/GIF path:
`rect['start_frame'] <= frame_number <= rect['end_frame']` — with no
special case for the `-1` sentinel. -/
def ui_active (r : BlurRegion) (f : ℤ) : Bool :=
  decide (r.start_frame ≤ f) && decide (f ≤ r.end_frame)

/-- Shallow embedding of `apply_blur_effects_for_frame(frame, frame_number)`
of `blur_advanced_ui.py`: start from `result_frame = frame.copy()` and fold
the regions in store order, applying each one whose membership test
passes.  This is the compositor used by both the interactive preview and
`export_as_gif`. -/
def apply_blur_effects_for_frame (gauss : ℤ → Roi → Roi)
    (resize : ℤ × ℤ → Roi → Roi) (fr : Frame) (f : ℤ)
    (regions : List BlurRegion) : Frame :=
  regions.foldl
    (fun acc r => if ui_active r f then ui_apply_one gauss resize acc r
      else acc)
    fr

/-- `frame_skip = max(1, total_frames // target_frames)` of
`export_as_gif`. -/
def frame_skip (total_frames target_frames : ℕ) : ℕ :=
  max 1 (total_frames / target_frames)

/-- The source frame indices retained by the `export_as_gif` read loop:
`frame_count` runs over `0 .. total_frames - 1` and a frame is processed
iff `frame_count % frame_skip == 0`. -/
def gif_sampled_indices (total_frames target_frames : ℕ) : List ℕ :=
  (List.range total_frames).filter
    (fun i => i % frame_skip total_frames target_frames == 0)

/-- `duration_ms = int(1000 / (fps / frame_skip))` of `export_as_gif`
(Python `int` truncates; the quotient is positive here, so this is the
floor). -/
def duration_ms (fps skip : ℕ) : ℤ :=
  Int.floor ((1000 : ℚ) / ((fps : ℚ) / (skip : ℚ)))

/-- `load_regions` of `blur_advanced_ui.py`: clear the store, then append
one dict per persisted record, copying the eight engine-relevant fields
verbatim.  No field is validated, clamped, or normalized. -/
def load_regions (records : List BlurRegion) : List BlurRegion :=
  records.map
    (fun d =>
      { x := d.x, y := d.y, width := d.width, height := d.height,
        blur_type := d.blur_type, intensity := d.intensity,
        start_frame := d.start_frame, end_frame := d.end_frame })

/-- `confirm_rectangle` of `blur_advanced_ui.py`, at the moment a pending or
held rect is confirmed: `self.regions.append(rect_to_confirm)` — the rect is
appended to the store as-is, with no validation. -/
def confirm_rectangle (regions : List BlurRegion) (rect : BlurRegion) :
    List BlurRegion :=
  regions ++ [rect]

/-- Modelled from the spec wording of the claim under test (refinement
side): a region is active at `frameIndex` iff `startFrame ≤ frameIndex` and
(`endFrame` is the open sentinel `-1` OR `frameIndex ≤ endFrame`). -/
def spec_claimed_active (r : BlurRegion) (f : ℤ) : Bool :=
  decide (r.start_frame ≤ f) &&
    (decide (r.end_frame = -1) || decide (f ≤ r.end_frame))

/-- Modelled from the spec wording of the claim under test (refinement
side): gaussian kernel size `round(15 + o·86)`, forced odd. -/
def spec_kernel_size (o : ℚ) : ℤ :=
  let k := round (15 + o * 86)
  if k % 2 = 0 then k + 1 else k

/-- Modelled from the spec wording of the claim under test (refinement
side): per-frame GIF display duration `round(1000 / (fps / frameSkip))`. -/
def spec_duration_ms (fps skip : ℕ) : ℤ :=
  round ((1000 : ℚ) / ((fps : ℚ) / (skip : ℚ)))

lemma frameActiveExport_eq_true_iff (r : BlurRegion) (f : ℤ) :
    frameActiveExport r f = true ↔
      r.start_frame ≤ f ∧ (r.end_frame = -1 ∨ f ≤ r.end_frame) := by
  simp only [frameActiveExport, Bool.or_eq_true, Bool.and_eq_true,
    decide_eq_true_eq]
  tauto

lemma frameActiveExport_eq_spec (r : BlurRegion) (f : ℤ) :
    frameActiveExport r f = spec_claimed_active r f := by
  simp only [frameActiveExport, spec_claimed_active]
  cases h1 : decide (r.start_frame ≤ f) <;>
    cases h2 : decide (f ≤ r.end_frame) <;>
      cases h3 : decide (r.end_frame = -1) <;> rfl

lemma process_frame_inactive_erase (g : ℤ → Roi → Roi)
    (p : ℤ × ℤ → Roi → Roi) (r : BlurRegion) (f : ℤ)
    (h : frameActiveExport r f = false) (l₁ l₂ : List BlurRegion)
    (fr : Frame) :
    process_frame g p (l₁ ++ r :: l₂) f fr =
      process_frame g p (l₁ ++ l₂) f fr := by
  simp [process_frame, List.foldl_append, h]

lemma process_frame_basic_inactive_erase (g : ℤ → Roi → Roi)
    (p : ℤ × ℤ → Roi → Roi) (r : BlurRegion) (f : ℤ)
    (h : frameActiveExport r f = false) (l₁ l₂ : List BlurRegion)
    (fr : Frame) :
    process_frame_basic g p (l₁ ++ r :: l₂) f fr =
      process_frame_basic g p (l₁ ++ l₂) f fr := by
  simp [process_frame_basic, List.foldl_append, h]

lemma process_video_frames_inactive_erase (g : ℤ → Roi → Roi)
    (p : ℤ × ℤ → Roi → Roi) (r : BlurRegion)
    (h : ∀ f : ℕ, frameActiveExport r (f : ℤ) = false)
    (l₁ l₂ : List BlurRegion) :
    ∀ (n : ℕ) (frames : List Frame),
      process_video_frames g p (l₁ ++ r :: l₂) n frames =
        process_video_frames g p (l₁ ++ l₂) n frames := by
  intro n frames
  induction frames generalizing n with
  | nil => rfl
  | cons fr rest ih =>
      simp only [process_video_frames,
        process_frame_inactive_erase g p r _ (h n) l₁ l₂ fr, ih (n + 1)]

/-- C1 (amended).  Temporal membership, as the code implements it.  In the
full-video export loop of both engines, a region is applied at frame `f` iff
`startFrame ≤ f` and (`endFrame = -1` or `f ≤ endFrame`), inclusive on both
ends, and a region inactive at `f` leaves the frame untouched.  The
preview/GIF path `apply_blur_effects_for_frame` instead tests
`startFrame ≤ f ≤ endFrame` with no sentinel handling: it agrees with the
claimed rule exactly when `endFrame ≠ -1`, and an open (`endFrame = -1`)
region is active at no frame index `f ≥ 0` there and leaves the frame
untouched. -/
theorem C1_temporal_membership :
    (∀ (r : BlurRegion) (f : ℤ),
      frameActiveExport r f = spec_claimed_active r f) ∧
    (∀ (g : ℤ → Roi → Roi) (p : ℤ × ℤ → Roi → Roi) (r : BlurRegion)
      (f : ℤ) (fr : Frame), spec_claimed_active r f = false →
        process_frame g p [r] f fr = fr ∧
          process_frame_basic g p [r] f fr = fr) ∧
    (∀ (r : BlurRegion) (f : ℤ), r.end_frame ≠ -1 →
      ui_active r f = spec_claimed_active r f) ∧
    (∀ (r : BlurRegion) (f : ℤ), 0 ≤ f → r.end_frame = -1 →
      ui_active r f = false) ∧
    (∀ (g : ℤ → Roi → Roi) (p : ℤ × ℤ → Roi → Roi) (r : BlurRegion)
      (f : ℤ) (fr : Frame), ui_active r f = false →
        apply_blur_effects_for_frame g p fr f [r] = fr) := by
  refine ⟨fun r f => frameActiveExport_eq_spec r f, ?_, ?_, ?_, ?_⟩
  · intro g p r f fr h
    have ha : frameActiveExport r f = false :=
      (frameActiveExport_eq_spec r f).trans h
    constructor
    · simp [process_frame, ha]
    · simp [process_frame_basic, ha]
  · intro r f hne
    have : decide (r.end_frame = -1) = false := decide_eq_false hne
    simp [ui_active, spec_claimed_active, this]
  · intro r f hf hend
    have : ¬f ≤ r.end_frame := by omega
    simp [ui_active, this]
  · intro g p r f fr h
    simp [apply_blur_effects_for_frame, h]

/-- C1 counterexample to the claim as stated: the open-sentinel region
`startFrame = 0`, `endFrame = -1` (black box, intensity 100) is active at
frame 0 by the claimed rule and is indeed applied by the export loop
(the region pixel becomes 0), but the preview/GIF compositing path leaves
the frame unchanged (the pixel stays 100), so the claimed rule does not
hold for every consumer. -/
theorem C1_counterexample :
    spec_claimed_active
        ⟨0, 0, 1, 1, .black_box, 100, 0, -1⟩ 0 = true ∧
      (process_frame (fun _ q => q) (fun _ q => q)
          [⟨0, 0, 1, 1, .black_box, 100, 0, -1⟩] 0
          ⟨1, 1, fun _ _ => 100⟩).pix 0 0 = 0 ∧
      (apply_blur_effects_for_frame (fun _ q => q) (fun _ q => q)
          ⟨1, 1, fun _ _ => 100⟩ 0
          [⟨0, 0, 1, 1, .black_box, 100, 0, -1⟩]).pix 0 0 = 100 := by
  refine ⟨by decide, ?_, ?_⟩
  · norm_num [process_frame, frameActiveExport, apply_blur_region,
      roi_size_zero, clip_x, clip_y, clip_w, clip_h, sliceCols, sliceRows,
      opacityOf, roiOf, blurred_roi, writeRect, max_def, min_def]
  · norm_num [apply_blur_effects_for_frame, ui_active]

/-- C1 witness: the amended theorem instantiated at the region
`startFrame = 10`, `endFrame = 20` and frame index 21 (inactive, frame
unchanged in the export loop). -/
theorem C1_witness :
    spec_claimed_active ⟨2, 3, 4, 5, .gaussian, 90, 10, 20⟩ 21 = false ∧
      process_frame (fun _ q => q) (fun _ q => q)
          [⟨2, 3, 4, 5, .gaussian, 90, 10, 20⟩] 21
          ⟨8, 8, fun _ _ => 7⟩ = ⟨8, 8, fun _ _ => 7⟩ ∧
      ui_active ⟨2, 3, 4, 5, .gaussian, 90, 10, 20⟩ 21 =
        spec_claimed_active ⟨2, 3, 4, 5, .gaussian, 90, 10, 20⟩ 21 :=
  ⟨by decide,
    (C1_temporal_membership.2.1 (fun _ q => q) (fun _ q => q)
      ⟨2, 3, 4, 5, .gaussian, 90, 10, 20⟩ 21 ⟨8, 8, fun _ _ => 7⟩
      (by decide)).1,
    C1_temporal_membership.2.2.1 ⟨2, 3, 4, 5, .gaussian, 90, 10, 20⟩ 21
      (by decide)⟩

/-- C10 (confirmed).  A region whose `end_frame` is negative but not `-1`
is active at no frame index of the export loop (frame counters are
nonnegative), so both engines' exported videos are identical to the videos
produced without that region. -/
theorem C10_negative_sentinel_inactive (r : BlurRegion)
    (hneg : r.end_frame < 0) (hne : r.end_frame ≠ -1) :
    (∀ f : ℕ, frameActiveExport r (f : ℤ) = false) ∧
    (∀ (g : ℤ → Roi → Roi) (p : ℤ × ℤ → Roi → Roi)
      (l₁ l₂ : List BlurRegion) (frames : List Frame),
      process_video g p (l₁ ++ r :: l₂) frames =
        process_video g p (l₁ ++ l₂) frames) ∧
    (∀ (g : ℤ → Roi → Roi) (p : ℤ × ℤ → Roi → Roi)
      (l₁ l₂ : List BlurRegion) (f : ℕ) (fr : Frame),
      process_frame_basic g p (l₁ ++ r :: l₂) (f : ℤ) fr =
        process_frame_basic g p (l₁ ++ l₂) (f : ℤ) fr) := by
  have hinact : ∀ f : ℕ, frameActiveExport r (f : ℤ) = false := by
    intro f
    rw [← Bool.not_eq_true, frameActiveExport_eq_true_iff]
    omega
  refine ⟨hinact, ?_, ?_⟩
  · intro g p l₁ l₂ frames
    exact process_video_frames_inactive_erase g p r hinact l₁ l₂ 0 frames
  · intro g p l₁ l₂ f fr
    exact process_frame_basic_inactive_erase g p r _ (hinact f) l₁ l₂ fr

/-- C10 witness: a region with `end_frame = -2` is inactive at frame 0 and
erases from a concrete one-frame export of both engines. -/
theorem C10_witness :
    frameActiveExport ⟨0, 0, 1, 1, .black_box, 100, 0, -2⟩ ((0 : ℕ) : ℤ) =
        false ∧
      process_video (fun _ q => q) (fun _ q => q)
          ([] ++ ⟨0, 0, 1, 1, .black_box, 100, 0, -2⟩ :: [])
          [⟨1, 1, fun _ _ => 100⟩] =
        process_video (fun _ q => q) (fun _ q => q) ([] ++ [])
          [⟨1, 1, fun _ _ => 100⟩] :=
  ⟨(C10_negative_sentinel_inactive ⟨0, 0, 1, 1, .black_box, 100, 0, -2⟩
      (by decide) (by decide)).1 0,
    (C10_negative_sentinel_inactive ⟨0, 0, 1, 1, .black_box, 100, 0, -2⟩
      (by decide) (by decide)).2.1 (fun _ q => q) (fun _ q => q) [] []
      [⟨1, 1, fun _ _ => 100⟩]⟩

lemma opacityOf_mem (i : ℤ) : 1 / 10 ≤ opacityOf i ∧ opacityOf i ≤ 1 := by
  unfold opacityOf
  exact ⟨le_max_left _ _, max_le (by norm_num) (min_le_left _ _)⟩

lemma kernel_size_odd (o : ℚ) : Odd (kernel_size o) := by
  unfold kernel_size
  by_cases h : (⌊(15 : ℚ) + o * 86⌋) % 2 = 0
  · rw [if_pos h, Int.odd_iff]
    omega
  · rw [if_neg h, Int.odd_iff]
    omega

/-- C2 (amended).  Gaussian strength curve as the code implements it: with
`o = intensity/100` clamped to `[0.1, 1.0]`, the kernel size is the
truncation `int(15 + o·86)` — not the rounding `round(15 + o·86)` — forced
odd, and the Gaussian pass with that kernel is applied three times when
`o > 0.9`, twice when `0.7 < o ≤ 0.9`, and once otherwise. -/
theorem C2_gaussian_strength_curve (g : ℤ → Roi → Roi)
    (p : ℤ × ℤ → Roi → Roi) (roi : Roi) (r : BlurRegion)
    (hbt : r.blur_type = .gaussian) :
    blurred_roi g p roi r.blur_type (opacityOf r.intensity) =
      (g (kernel_size (opacityOf r.intensity)))^[
        if 9 / 10 < opacityOf r.intensity then 3
        else if 7 / 10 < opacityOf r.intensity then 2 else 1] roi ∧
    kernel_size (opacityOf r.intensity) =
      (if ⌊(15 : ℚ) + opacityOf r.intensity * 86⌋ % 2 = 0
        then ⌊(15 : ℚ) + opacityOf r.intensity * 86⌋ + 1
        else ⌊(15 : ℚ) + opacityOf r.intensity * 86⌋) ∧
    Odd (kernel_size (opacityOf r.intensity)) ∧
    1 / 10 ≤ opacityOf r.intensity ∧ opacityOf r.intensity ≤ 1 := by
  rw [hbt]
  refine ⟨?_, rfl, kernel_size_odd _, (opacityOf_mem r.intensity).1,
    (opacityOf_mem r.intensity).2⟩
  simp only [blurred_roi]
  by_cases h9 : 9 / 10 < opacityOf r.intensity
  · have h7 : 7 / 10 < opacityOf r.intensity :=
      lt_trans (by norm_num) h9
    rw [if_pos h7, if_pos h9, if_pos h9]
    rfl
  · rw [if_neg h9, if_neg h9]
    by_cases h7 : 7 / 10 < opacityOf r.intensity
    · rw [if_pos h7, if_pos h7]
      rfl
    · rw [if_neg h7, if_neg h7]
      rfl

/-- C2 counterexample to the claim as stated: at `intensity = 31`
(`o = 0.31`), the code's kernel size is `int(15 + 26.66) = 41` (odd, kept),
while the claimed `round(15 + 26.66) = 42`, forced odd, gives `43`. -/
theorem C2_counterexample :
    kernel_size (opacityOf 31) = 41 ∧ spec_kernel_size (opacityOf 31) = 43 := by
  have ho : opacityOf 31 = 31 / 100 := by
    norm_num [opacityOf, max_def, min_def]
  have hfl : (⌊(15 : ℚ) + 31 / 100 * 86⌋ : ℤ) = 41 := by
    norm_num [Int.floor_eq_iff]
  have hrd : (round ((15 : ℚ) + 31 / 100 * 86) : ℤ) = 42 := by
    rw [round_eq]
    norm_num [Int.floor_eq_iff]
  constructor
  · rw [ho, kernel_size]
    rw [hfl]
    norm_num
  · rw [ho, spec_kernel_size]
    rw [hrd]
    norm_num

/-- C2 witness: the amended theorem at a concrete gaussian region with
`intensity = 90` (`o = 0.9`: two passes, kernel `int(15+77.4) = 92` forced
odd to `93`). -/
theorem C2_witness :
    blurred_roi (fun _ q => q) (fun _ q => q) ⟨1, 1, fun _ _ => 0⟩
        BlurType.gaussian (opacityOf 90) =
      ((fun _ q => q : ℤ → Roi → Roi) (kernel_size (opacityOf 90)))^[
        if 9 / 10 < opacityOf 90 then 3
        else if 7 / 10 < opacityOf 90 then 2 else 1] ⟨1, 1, fun _ _ => 0⟩ ∧
    kernel_size (opacityOf 90) =
      (if ⌊(15 : ℚ) + opacityOf 90 * 86⌋ % 2 = 0
        then ⌊(15 : ℚ) + opacityOf 90 * 86⌋ + 1
        else ⌊(15 : ℚ) + opacityOf 90 * 86⌋) ∧
    Odd (kernel_size (opacityOf 90)) ∧
    1 / 10 ≤ opacityOf 90 ∧ opacityOf 90 ≤ 1 :=
  C2_gaussian_strength_curve (fun _ q => q) (fun _ q => q)
    ⟨1, 1, fun _ _ => 0⟩ ⟨0, 0, 1, 1, .gaussian, 90, 0, -1⟩ rfl

/-- C3 (amended).  Blending rule as the code implements it.  In the
advanced engine (and, with the same formulas, the UI path): inside the
clipped rect, if `o ≥ 0.95` the transform output is written directly;
otherwise the output pixel is `(1 − w)·original + w·transformed` with
`w = min(1.0, o·1.2)`.  The basic engine (`blur_engine.py`) instead always
blends with weight `o` itself — it has no full-replace branch and no `1.2`
boost. -/
theorem C3_blending_rule (g : ℤ → Roi → Roi) (p : ℤ × ℤ → Roi → Roi)
    (fr : Frame) (r : BlurRegion) (i j : ℤ)
    (hnd : roi_size_zero r fr.width fr.height = false)
    (hx1 : clip_x r.x fr.width ≤ i)
    (hx2 : i < clip_x r.x fr.width +
      clip_w r.width fr.width (clip_x r.x fr.width))
    (hy1 : clip_y r.y fr.height ≤ j)
    (hy2 : j < clip_y r.y fr.height +
      clip_h r.height fr.height (clip_y r.y fr.height)) :
    ((apply_blur_region g p fr r).1).pix i j =
      (if 95 / 100 ≤ opacityOf r.intensity then
        (blurred_roi g p (roiOf fr r) r.blur_type (opacityOf r.intensity)).pix
          (i - clip_x r.x fr.width) (j - clip_y r.y fr.height)
      else
        (1 - min 1 (opacityOf r.intensity * (12 / 10))) * fr.pix i j +
          min 1 (opacityOf r.intensity * (12 / 10)) *
            (blurred_roi g p (roiOf fr r) r.blur_type
              (opacityOf r.intensity)).pix
              (i - clip_x r.x fr.width) (j - clip_y r.y fr.height)) ∧
    ((apply_blur_region_basic g p fr r).1).pix i j =
      (1 - opacityOf r.intensity) * fr.pix i j +
        opacityOf r.intensity *
          (blurred_roi_basic g p (roiOf fr r) r.blur_type
            (opacityOf r.intensity)).pix
            (i - clip_x r.x fr.width) (j - clip_y r.y fr.height) := by
  have e1 : clip_x r.x fr.width + (i - clip_x r.x fr.width) = i := by ring
  have e2 : clip_y r.y fr.height + (j - clip_y r.y fr.height) = j := by ring
  constructor
  · simp only [apply_blur_region, hnd, Bool.false_eq_true, if_false]
    by_cases ho : (95 / 100 : ℚ) ≤ opacityOf r.intensity
    · rw [if_pos ho, if_pos ho]
      simp only [writeRect]
      rw [if_pos ⟨hx1, hx2, hy1, hy2⟩]
    · rw [if_neg ho, if_neg ho]
      simp only [writeRect]
      rw [if_pos ⟨hx1, hx2, hy1, hy2⟩]
      simp only [roiOf]
      rw [e1, e2]
  · simp only [apply_blur_region_basic, hnd, Bool.false_eq_true, if_false]
    simp only [writeRect]
    rw [if_pos ⟨hx1, hx2, hy1, hy2⟩]
    simp only [roiOf]
    rw [e1, e2]

/-- C3 counterexample to the claim as stated: in the basic engine, a
black-box region with `intensity = 95` (`o = 0.95 ≥ 0.95`) on a constant-100
frame yields pixel value `0.05·100 + 0.95·0 = 5`, not the direct transform
output `0` that the full-replace rule demands. -/
theorem C3_counterexample :
    (95 / 100 : ℚ) ≤ opacityOf 95 ∧
      (blurred_roi_basic (fun _ q => q) (fun _ q => q)
          (roiOf ⟨1, 1, fun _ _ => 100⟩ ⟨0, 0, 1, 1, .black_box, 95, 0, -1⟩)
          BlurType.black_box (opacityOf 95)).pix 0 0 = 0 ∧
      ((apply_blur_region_basic (fun _ q => q) (fun _ q => q)
          ⟨1, 1, fun _ _ => 100⟩
          ⟨0, 0, 1, 1, .black_box, 95, 0, -1⟩).1).pix 0 0 = 5 := by
  refine ⟨by norm_num [opacityOf, max_def, min_def], rfl, ?_⟩
  norm_num [apply_blur_region_basic, roi_size_zero, clip_x, clip_y, clip_w,
    clip_h, sliceCols, sliceRows, opacityOf, roiOf, blurred_roi_basic,
    writeRect, max_def, min_def]

/-- C3 witness: the amended theorem at a black-box region with
`intensity = 50` on a constant frame, pixel `(0, 0)`. -/
theorem C3_witness :
    ((apply_blur_region (fun _ q => q) (fun _ q => q) ⟨2, 2, fun _ _ => 100⟩
        ⟨0, 0, 1, 1, .black_box, 50, 0, -1⟩).1).pix 0 0 =
      (if 95 / 100 ≤ opacityOf 50 then
        (blurred_roi (fun _ q => q) (fun _ q => q)
          (roiOf ⟨2, 2, fun _ _ => 100⟩ ⟨0, 0, 1, 1, .black_box, 50, 0, -1⟩)
          BlurType.black_box (opacityOf 50)).pix (0 - clip_x 0 2)
          (0 - clip_y 0 2)
      else
        (1 - min 1 (opacityOf 50 * (12 / 10))) * 100 +
          min 1 (opacityOf 50 * (12 / 10)) *
            (blurred_roi (fun _ q => q) (fun _ q => q)
              (roiOf ⟨2, 2, fun _ _ => 100⟩
                ⟨0, 0, 1, 1, .black_box, 50, 0, -1⟩)
              BlurType.black_box (opacityOf 50)).pix (0 - clip_x 0 2)
              (0 - clip_y 0 2)) ∧
    ((apply_blur_region_basic (fun _ q => q) (fun _ q => q)
        ⟨2, 2, fun _ _ => 100⟩ ⟨0, 0, 1, 1, .black_box, 50, 0, -1⟩).1).pix
        0 0 =
      (1 - opacityOf 50) * 100 +
        opacityOf 50 *
          (blurred_roi_basic (fun _ q => q) (fun _ q => q)
            (roiOf ⟨2, 2, fun _ _ => 100⟩ ⟨0, 0, 1, 1, .black_box, 50, 0, -1⟩)
            BlurType.black_box (opacityOf 50)).pix (0 - clip_x 0 2)
            (0 - clip_y 0 2) :=
  C3_blending_rule (fun _ q => q) (fun _ q => q) ⟨2, 2, fun _ _ => 100⟩
    ⟨0, 0, 1, 1, .black_box, 50, 0, -1⟩ 0 0 (by decide) (by decide)
    (by decide) (by decide) (by decide)

/-- C4 (amended).  Clipping safety as the code implements it: for every
integer rect, the clipped origin lands in the closed box
`[0, width] × [0, height]` (closed, not half-open, on the right — `min` is
taken against `shape`, not `shape - 1`) and the clipped width and height are
each ≥ 1.  Whenever the resulting ROI is nonempty, the clipped rect lies
entirely inside `[0, width) × [0, height)`; when it is empty (exactly the
case `x = width` or `y = height`), no pixel operation happens: the region is
skipped and the frame is returned unchanged, so no input ever causes an
out-of-bounds access or an exception. -/
theorem C4_clipping_safety (r : BlurRegion) (W H : ℕ) :
    0 ≤ clip_x r.x W ∧ clip_x r.x W ≤ (W : ℤ) ∧
    0 ≤ clip_y r.y H ∧ clip_y r.y H ≤ (H : ℤ) ∧
    1 ≤ clip_w r.width W (clip_x r.x W) ∧
    1 ≤ clip_h r.height H (clip_y r.y H) ∧
    (roi_size_zero r W H = false →
      clip_x r.x W < (W : ℤ) ∧ clip_y r.y H < (H : ℤ) ∧
      clip_x r.x W + clip_w r.width W (clip_x r.x W) ≤ (W : ℤ) ∧
      clip_y r.y H + clip_h r.height H (clip_y r.y H) ≤ (H : ℤ)) ∧
    (∀ (g : ℤ → Roi → Roi) (p : ℤ × ℤ → Roi → Roi) (fr : Frame),
      fr.width = W → fr.height = H → roi_size_zero r W H = true →
        (apply_blur_region g p fr r).1 = fr) := by
  refine ⟨?_, ?_, ?_, ?_, ?_, ?_, ?_, ?_⟩
  · simp only [clip_x]; omega
  · simp only [clip_x]; omega
  · simp only [clip_y]; omega
  · simp only [clip_y]; omega
  · simp only [clip_w]; omega
  · simp only [clip_h]; omega
  · intro h
    simp only [roi_size_zero, Bool.or_eq_false_iff] at h
    obtain ⟨h1, h2⟩ := h
    rw [beq_eq_false_iff_ne] at h1 h2
    simp only [sliceRows, sliceCols, clip_x, clip_y, clip_w, clip_h]
      at h1 h2 ⊢
    refine ⟨by omega, by omega, by omega, by omega⟩
  · intro g p fr hW hH hdeg
    subst hW
    subst hH
    simp [apply_blur_region, hdeg]

/-- C4 counterexample to the claim as stated: a rect fully right of a
4-pixel-wide frame clips to `x = 4`, which is not in `[0, 4)`; the clip is
into the closed interval `[0, width]`, not the claimed half-open one. -/
theorem C4_counterexample :
    clip_x (BlurRegion.x ⟨10, 0, 2, 2, .gaussian, 90, 0, -1⟩) 4 = 4 ∧
      ¬clip_x (BlurRegion.x ⟨10, 0, 2, 2, .gaussian, 90, 0, -1⟩) 4 < (4 : ℤ) := by
  decide

/-- C4 witness: the amended theorem's skip branch at a fully out-of-bounds
rect on a 4×4 frame — the frame is returned unchanged. -/
theorem C4_witness :
    (apply_blur_region (fun _ q => q) (fun _ q => q) ⟨4, 4, fun _ _ => 9⟩
        ⟨10, 0, 2, 2, .gaussian, 90, 0, -1⟩).1 = ⟨4, 4, fun _ _ => 9⟩ :=
  (C4_clipping_safety ⟨10, 0, 2, 2, .gaussian, 90, 0, -1⟩ 4 4).2.2.2.2.2.2.2
    (fun _ q => q) (fun _ q => q) ⟨4, 4, fun _ _ => 9⟩ rfl rfl (by decide)

/-- C5 (confirmed).  GIF sampling: `frameSkip = max(1, total // target)`,
and the retained source indices are exactly the multiples of `frameSkip`
below `total`; in particular 150 frames at target 15 sample exactly
`0, 10, ..., 140`. -/
theorem C5_gif_sampling (total target : ℕ) (h1 : 1 ≤ total)
    (h2 : 1 ≤ target) :
    frame_skip total target = max 1 (total / target) ∧
    (∀ i : ℕ, i ∈ gif_sampled_indices total target ↔
      i < total ∧ i % frame_skip total target = 0) ∧
    frame_skip 150 15 = 10 ∧
    gif_sampled_indices 150 15 = (List.range 15).map (fun k => 10 * k) ∧
    (gif_sampled_indices 150 15).length = 15 := by
  refine ⟨rfl, ?_, by decide, by decide, by decide⟩
  intro i
  simp [gif_sampled_indices, List.mem_filter, List.mem_range]

/-- C5 witness: the theorem at `total = 150`, `target = 15`; retention of
index 20 and exclusion of index 21 follow from the membership
characterization. -/
theorem C5_witness :
    (20 ∈ gif_sampled_indices 150 15 ↔
        20 < 150 ∧ 20 % frame_skip 150 15 = 0) ∧
      (gif_sampled_indices 150 15).length = 15 :=
  ⟨(C5_gif_sampling 150 15 (by decide) (by decide)).2.1 20,
    (C5_gif_sampling 150 15 (by decide) (by decide)).2.2.2.2⟩

lemma apply_blur_region_width (g : ℤ → Roi → Roi) (p : ℤ × ℤ → Roi → Roi)
    (fr : Frame) (r : BlurRegion) :
    ((apply_blur_region g p fr r).1).width = fr.width := by
  simp only [apply_blur_region, writeRect]
  split
  · rfl
  · split <;> rfl

lemma apply_blur_region_height (g : ℤ → Roi → Roi) (p : ℤ × ℤ → Roi → Roi)
    (fr : Frame) (r : BlurRegion) :
    ((apply_blur_region g p fr r).1).height = fr.height := by
  simp only [apply_blur_region, writeRect]
  split
  · rfl
  · split <;> rfl

lemma process_frame_append (g : ℤ → Roi → Roi) (p : ℤ × ℤ → Roi → Roi)
    (l₁ l₂ : List BlurRegion) (f : ℤ) (fr : Frame) :
    process_frame g p (l₁ ++ l₂) f fr =
      process_frame g p l₂ f (process_frame g p l₁ f fr) := by
  simp [process_frame, List.foldl_append]

lemma process_frame_dims (g : ℤ → Roi → Roi) (p : ℤ × ℤ → Roi → Roi)
    (l : List BlurRegion) (f : ℤ) (fr : Frame) :
    (process_frame g p l f fr).width = fr.width ∧
      (process_frame g p l f fr).height = fr.height := by
  induction l generalizing fr with
  | nil => exact ⟨rfl, rfl⟩
  | cons a l ih =>
      have step :
          (if frameActiveExport a f then (apply_blur_region g p fr a).1
            else fr).width = fr.width ∧
          (if frameActiveExport a f then (apply_blur_region g p fr a).1
            else fr).height = fr.height := by
        by_cases h : frameActiveExport a f
        · rw [if_pos h]
          exact ⟨apply_blur_region_width g p fr a,
            apply_blur_region_height g p fr a⟩
        · rw [if_neg h]
          exact ⟨rfl, rfl⟩
      have tail := ih (if frameActiveExport a f then
        (apply_blur_region g p fr a).1 else fr)
      simp only [process_frame, List.foldl_cons] at tail ⊢
      exact ⟨tail.1.trans step.1, tail.2.trans step.2⟩

/-- C6 (confirmed).  Per-region failure recovery: a region whose clipped
ROI is degenerate (the `roi.size == 0` early-return, which is the code's
per-region failure path) leaves the frame exactly as given, and removing
such a region from the store does not change what the export loop produces
for the frame: the output equals the input composited with the remaining
regions. -/
theorem C6_region_failure_recovery (r : BlurRegion) (W H : ℕ)
    (hdeg : roi_size_zero r W H = true) :
    ∀ (g : ℤ → Roi → Roi) (p : ℤ × ℤ → Roi → Roi) (fr : Frame),
      fr.width = W → fr.height = H →
        (apply_blur_region g p fr r).1 = fr ∧
        ∀ (l₁ l₂ : List BlurRegion) (f : ℤ),
          process_frame g p (l₁ ++ r :: l₂) f fr =
            process_frame g p (l₁ ++ l₂) f fr := by
  intro g p fr hWf hHf
  have happ : ∀ fr' : Frame, fr'.width = W → fr'.height = H →
      (apply_blur_region g p fr' r).1 = fr' := by
    intro fr' h1 h2
    have hd : roi_size_zero r fr'.width fr'.height = true := by
      rw [h1, h2]
      exact hdeg
    simp [apply_blur_region, hd]
  refine ⟨happ fr hWf hHf, ?_⟩
  intro l₁ l₂ f
  rw [process_frame_append g p l₁ (r :: l₂), process_frame_append g p l₁ l₂]
  have hd := process_frame_dims g p l₁ f fr
  simp only [process_frame, List.foldl_cons]
  by_cases hact : frameActiveExport r f
  · rw [if_pos hact]
    have := happ (process_frame g p l₁ f fr) (hd.1.trans hWf)
      (hd.2.trans hHf)
    simp only [process_frame] at this
    rw [this]
  · rw [if_neg hact]

/-- C6 witness: a region fully right of a 4×4 frame is skipped; the frame
produced by the export loop from `[good, bad]` equals the one produced from
`[good]` alone. -/
theorem C6_witness :
    (apply_blur_region (fun _ q => q) (fun _ q => q) ⟨4, 4, fun _ _ => 9⟩
        ⟨10, 0, 2, 2, .black_box, 100, 0, -1⟩).1 = ⟨4, 4, fun _ _ => 9⟩ ∧
      process_frame (fun _ q => q) (fun _ q => q)
          ([⟨0, 0, 2, 2, .white_box, 100, 0, -1⟩] ++
            ⟨10, 0, 2, 2, .black_box, 100, 0, -1⟩ :: []) 0
          ⟨4, 4, fun _ _ => 9⟩ =
        process_frame (fun _ q => q) (fun _ q => q)
          ([⟨0, 0, 2, 2, .white_box, 100, 0, -1⟩] ++ []) 0
          ⟨4, 4, fun _ _ => 9⟩ :=
  ⟨(C6_region_failure_recovery ⟨10, 0, 2, 2, .black_box, 100, 0, -1⟩ 4 4
      (by decide) (fun _ q => q) (fun _ q => q) ⟨4, 4, fun _ _ => 9⟩ rfl
      rfl).1,
    (C6_region_failure_recovery ⟨10, 0, 2, 2, .black_box, 100, 0, -1⟩ 4 4
      (by decide) (fun _ q => q) (fun _ q => q) ⟨4, 4, fun _ _ => 9⟩ rfl
      rfl).2 [⟨0, 0, 2, 2, .white_box, 100, 0, -1⟩] [] 0⟩

/-- C7 (amended).  Buffer isolation as the code implements it: the input
frame value is never mutated (the blend is written into
`result = frame.copy()`), and the returned buffer is a fresh copy whenever
the clipped ROI is nonempty; but on the degenerate-ROI path the function
executes `return frame`, handing back the very input buffer (aliased,
unchanged) rather than a new one. -/
theorem C7_buffer_isolation (g : ℤ → Roi → Roi) (p : ℤ × ℤ → Roi → Roi)
    (fr : Frame) (r : BlurRegion) :
    ((apply_blur_region g p fr r).2 = true ↔
      roi_size_zero r fr.width fr.height = true) ∧
    (roi_size_zero r fr.width fr.height = true →
      (apply_blur_region g p fr r).1 = fr) ∧
    (roi_size_zero r fr.width fr.height = false →
      (apply_blur_region g p fr r).2 = false) := by
  by_cases h : roi_size_zero r fr.width fr.height
  · refine ⟨?_, ?_, ?_⟩ <;> simp [apply_blur_region, h]
  · rw [Bool.not_eq_true] at h
    refine ⟨?_, ?_, ?_⟩ <;>
      simp only [apply_blur_region, h, Bool.false_eq_true, if_false]
    · constructor
      · intro hc
        by_cases ho : (95 / 100 : ℚ) ≤ opacityOf r.intensity
        · rw [if_pos ho] at hc
          exact absurd hc (by simp)
        · rw [if_neg ho] at hc
          exact absurd hc (by simp)
      · intro hc
        exact absurd hc (by simp)
    · intro hc
      exact absurd hc (by simp)
    · intro _
      by_cases ho : (95 / 100 : ℚ) ≤ opacityOf r.intensity
      · rw [if_pos ho]
      · rw [if_neg ho]

/-- C7 counterexample to the claim as stated: for a rect fully outside a
4×4 frame, `apply_blur_region` returns the input frame object itself
(the aliased `return frame` path), not a new buffer. -/
theorem C7_counterexample :
    (apply_blur_region (fun _ q => q) (fun _ q => q) ⟨4, 4, fun _ _ => 9⟩
        ⟨0, 10, 2, 2, .gaussian, 90, 0, -1⟩).2 = true := by
  decide

/-- C7 witness: the amended theorem's aliased branch at a concrete
out-of-bounds region — the returned (aliased) buffer equals the input. -/
theorem C7_witness :
    (apply_blur_region (fun _ q => q) (fun _ q => q) ⟨3, 3, fun _ _ => 4⟩
        ⟨9, 9, 2, 2, .black_box, 50, 0, -1⟩).1 = ⟨3, 3, fun _ _ => 4⟩ :=
  (C7_buffer_isolation (fun _ q => q) (fun _ q => q) ⟨3, 3, fun _ _ => 4⟩
    ⟨9, 9, 2, 2, .black_box, 50, 0, -1⟩).2.1 (by decide)

/-- C8 (amended).  There is no add-time validation: `load_regions` and
`confirm_rectangle` put records into the store verbatim.  What the claim
attributes to `add` happens (differently) at use time: intensity is clamped
to opacity `[0.1, 1.0]` inside the compositor, zero-area rects are tolerated
by use-time clamping of width/height to ≥ 1, and a region with
`endFrame < startFrame` (other than `-1`) is not normalized to open-ended —
it is stored as-is and is simply active at no frame in either consumer. -/
theorem C8_no_add_time_validation :
    (∀ records : List BlurRegion, load_regions records = records) ∧
    (∀ (regions : List BlurRegion) (rect : BlurRegion),
      confirm_rectangle regions rect = regions ++ [rect]) ∧
    (∀ i : ℤ, 1 / 10 ≤ opacityOf i ∧ opacityOf i ≤ 1) ∧
    (∀ (rw : ℤ) (W : ℕ) (x : ℤ), 1 ≤ clip_w rw W x) ∧
    (∀ (r : BlurRegion) (f : ℤ), r.end_frame < r.start_frame →
      r.end_frame ≠ -1 →
        frameActiveExport r f = false ∧ ui_active r f = false) := by
  refine ⟨?_, fun _ _ => rfl, opacityOf_mem, ?_, ?_⟩
  · intro records
    unfold load_regions
    exact List.map_id records
  · intro rw W x
    simp only [clip_w]
    omega
  · intro r f h1 h2
    constructor
    · rw [← Bool.not_eq_true, frameActiveExport_eq_true_iff]
      omega
    · rw [← Bool.not_eq_true]
      simp only [ui_active, Bool.and_eq_true, decide_eq_true_eq]
      omega

/-- C8 counterexample to the claim as stated: a persisted record with a
zero-area rect, intensity 500 and `endFrame = 3 < startFrame = 5` is loaded
into the store unchanged — not rejected, not clamped, and not normalized to
the open sentinel `-1`. -/
theorem C8_counterexample :
    load_regions [⟨0, 0, 0, 0, .gaussian, 500, 5, 3⟩] =
        [⟨0, 0, 0, 0, .gaussian, 500, 5, 3⟩] ∧
      BlurRegion.width ⟨0, 0, 0, 0, .gaussian, 500, 5, 3⟩ = 0 ∧
      BlurRegion.intensity ⟨0, 0, 0, 0, .gaussian, 500, 5, 3⟩ = 500 ∧
      BlurRegion.end_frame ⟨0, 0, 0, 0, .gaussian, 500, 5, 3⟩ <
        BlurRegion.start_frame ⟨0, 0, 0, 0, .gaussian, 500, 5, 3⟩ ∧
      BlurRegion.end_frame ⟨0, 0, 0, 0, .gaussian, 500, 5, 3⟩ ≠ -1 :=
  ⟨rfl, by decide, by decide, by decide, by decide⟩

/-- C8 witness: the amended theorem at the stored `endFrame < startFrame`
region — it is active at no frame in either membership test. -/
theorem C8_witness :
    frameActiveExport ⟨0, 0, 0, 0, .gaussian, 500, 5, 3⟩ 4 = false ∧
      ui_active ⟨0, 0, 0, 0, .gaussian, 500, 5, 3⟩ 4 = false :=
  C8_no_add_time_validation.2.2.2.2 ⟨0, 0, 0, 0, .gaussian, 500, 5, 3⟩ 4
    (by decide) (by decide)

/-- C9 (amended).  GIF timing as the code implements it: the per-frame
display duration is the truncation `int(1000 / (fps / frameSkip))`, i.e.
`⌊1000·frameSkip / fps⌋` — not the claimed rounding, from which it can
differ by one millisecond (it always lies within `[round − 1, round]`). -/
theorem C9_gif_timing (fps skip : ℕ) (hfps : 0 < fps) (hskip : 1 ≤ skip) :
    duration_ms fps skip = ⌊(1000 * (skip : ℚ)) / (fps : ℚ)⌋ ∧
    spec_duration_ms fps skip - 1 ≤ duration_ms fps skip ∧
    duration_ms fps skip ≤ spec_duration_ms fps skip := by
  have hfq : (fps : ℚ) ≠ 0 := Nat.cast_ne_zero.mpr (by omega)
  have hsq : (skip : ℚ) ≠ 0 := Nat.cast_ne_zero.mpr (by omega)
  have key : (1000 : ℚ) / ((fps : ℚ) / (skip : ℚ)) =
      (1000 * (skip : ℚ)) / (fps : ℚ) := by
    field_simp
  refine ⟨by rw [duration_ms, key], ?_, ?_⟩
  · rw [duration_ms, spec_duration_ms, round_eq]
    have h1 : ⌊(1000 : ℚ) / ((fps : ℚ) / (skip : ℚ)) + 1 / 2⌋ ≤
        ⌊(1000 : ℚ) / ((fps : ℚ) / (skip : ℚ)) + 1⌋ :=
      Int.floor_le_floor (by linarith)
    rw [Int.floor_add_one] at h1
    omega
  · rw [duration_ms, spec_duration_ms, round_eq]
    exact Int.floor_le_floor (by linarith)

/-- C9 counterexample to the claim as stated: at `fps = 7`,
`frameSkip = 1`, the code writes `int(1000/7) = 142` ms per frame, while
the claimed `round(1000/7) = 143`. -/
theorem C9_counterexample :
    duration_ms 7 1 = 142 ∧ spec_duration_ms 7 1 = 143 := by
  constructor
  · rw [duration_ms]
    norm_num [Int.floor_eq_iff]
  · rw [spec_duration_ms, round_eq]
    norm_num [Int.floor_eq_iff]

/-- C9 witness: the amended theorem at `fps = 30`, `frameSkip = 10`
(duration `⌊1000·10/30⌋ = 333` ms). -/
theorem C9_witness :
    duration_ms 30 10 = ⌊(1000 * ((10 : ℕ) : ℚ)) / ((30 : ℕ) : ℚ)⌋ ∧
      spec_duration_ms 30 10 - 1 ≤ duration_ms 30 10 ∧
      duration_ms 30 10 ≤ spec_duration_ms 30 10 :=
  C9_gif_timing 30 10 (by decide) (by decide)

end BlurTool
